import Mathlib

/-!
Verification of the ETL transformation pipeline in `etl.py` (Data-Lake-Project).

The pipeline is embedded shallowly:

* a raw catalog / activity file becomes a `List` of records whose fields are
  `Option`-typed, mirroring the nullable Spark schemas `RawSongSchema` and
  `RawLogSchema`;
* each Spark dataframe transformation (`select`, `where`, `dropDuplicates`,
  `row_number` over a window, the SQL left joins) becomes a pure list
  function, with `List.dedup` playing the role of `dropDuplicates`;
* Spark `DoubleType` columns (`duration`, `latitude`, ...) are carried as
  opaque `Option Int` values: the pipeline only moves and compares them, it
  never does arithmetic on them;
* `TimestampType` values are carried as epoch milliseconds (`Int`).  The udf
  `get_timestamp` returns a timezone-naive UTC wall-clock time and the
  calendar functions (`hour`, `dayofmonth`, ...) read that wall clock back,
  so the derived calendar fields are those of the UTC wall time of `ts`.
-/

/-- One parsed record of a catalog (song-data) JSON file, schema
`RawSongSchema` of `etl.py`. All fields are nullable. -/
structure CatalogRecord where
  artist_id : Option String
  artist_latitude : Option Int
  artist_location : Option String
  artist_longitude : Option Int
  artist_name : Option String
  duration : Option Int
  num_songs : Option Int
  song_id : Option String
  title : Option String
  year : Option Int
deriving DecidableEq, Repr

/-- One parsed record of an activity (log-data) JSON file, schema
`RawLogSchema` of `etl.py`. All fields are nullable. -/
structure ActivityRecord where
  artist : Option String
  auth : Option String
  firstName : Option String
  gender : Option String
  itemInSession : Option Int
  lastName : Option String
  length : Option Int
  level : Option String
  location : Option String
  method : Option String
  page : Option String
  registration : Option Int
  sessionId : Option Int
  song : Option String
  status : Option Int
  ts : Option Int
  userAgent : Option String
  userId : Option String
deriving DecidableEq, Repr

/-- A row of the `songs_table`: projection
`select("song_id", "title", "artist_id", "year", "duration")`. -/
structure SongRow where
  song_id : Option String
  title : Option String
  artist_id : Option String
  year : Option Int
  duration : Option Int
deriving DecidableEq, Repr

/-- A row of the `artists_table`: projection
`select("artist_id", artist_name as name, artist_location as location,
artist_latitude as latitude, artist_longitude as longitude)`. -/
structure ArtistRow where
  artist_id : Option String
  name : Option String
  location : Option String
  latitude : Option Int
  longitude : Option Int
deriving DecidableEq, Repr

/-- A row of the `users_table` after the final `selectExpr` projection. -/
structure UserRow where
  user_id : Option String
  first_name : Option String
  last_name : Option String
  gender : Option String
  level : Option String
deriving DecidableEq, Repr

/-- Projection of a catalog record to a Song row (`etl.py` line 64). -/
def songRowOf (r : CatalogRecord) : SongRow :=
  { song_id := r.song_id, title := r.title, artist_id := r.artist_id,
    year := r.year, duration := r.duration }

/-- Projection of a catalog record to an Artist row (`etl.py` lines 71-73). -/
def artistRowOf (r : CatalogRecord) : ArtistRow :=
  { artist_id := r.artist_id, name := r.artist_name, location := r.artist_location,
    latitude := r.artist_latitude, longitude := r.artist_longitude }

/-- `songs_table`: project, drop null `song_id`, then `dropDuplicates()`
(whole-row). `etl.py` lines 64-65. -/
def songs_table (catalog : List CatalogRecord) : List SongRow :=
  (((catalog.map songRowOf).filter (fun s => s.song_id.isSome))).dedup

/-- `artists_table`: project, drop null `artist_id`, then `dropDuplicates()`
(whole-row). `etl.py` lines 71-73. -/
def artists_table (catalog : List CatalogRecord) : List ArtistRow :=
  (((catalog.map artistRowOf).filter (fun a => a.artist_id.isSome))).dedup

/-- The `where("page = 'NextSong'")` filter (`etl.py` line 116); a SQL
comparison with a null `page` is not true, so only records whose `page` is
exactly `"NextSong"` survive. -/
def filterNextSong (log : List ActivityRecord) : List ActivityRecord :=
  log.filter (fun r => r.page = some "NextSong")

/-- Strict "comes first" relation of the window ordering
`orderBy(col("ts").desc())`: larger `ts` first, null `ts` last (Spark's
default `desc` is nulls-last). -/
def tsBetter (a b : ActivityRecord) : Bool :=
  match a.ts, b.ts with
  | some x, some y => x > y
  | some _, none => true
  | none, _ => false

/-- The record of rank 1 in one window partition: a stable scan that keeps
the earliest record among those maximal for `tsBetter`, the deterministic
rendering of `row_number().over(Window.partitionBy("userId").orderBy(col("ts").desc()))`
followed by `where("ts_rank = 1")`. -/
def pickLatest (first : ActivityRecord) (rest : List ActivityRecord) : ActivityRecord :=
  rest.foldl (fun best x => if tsBetter x best then x else best) first

/-- Top-ranked record of a (possibly empty) partition. -/
def selectTop : List ActivityRecord → Option ActivityRecord
  | [] => none
  | r :: rest => some (pickLatest r rest)

/-- Final `selectExpr` projection of the users table (`etl.py` lines 123-124). -/
def projUser (r : ActivityRecord) : UserRow :=
  { user_id := r.userId, first_name := r.firstName, last_name := r.lastName,
    gender := r.gender, level := r.level }

/-- The rank-1 record of the window partition of user id `uid` inside the
filtered log `f`. -/
def topOfPartition (f : List ActivityRecord) (uid : Option String) : Option ActivityRecord :=
  selectTop (f.filter (fun r => r.userId = uid))

/-- `users_table` (`etl.py` lines 119-124): rank every `NextSong` record
inside its `userId` partition by `ts` descending, keep the rank-1 record of
every partition, then drop the null-`userId` partition's survivor
(`where("userId is not null")`), then project. -/
def users_table (log : List ActivityRecord) : List UserRow :=
  (((((filterNextSong log).map (fun r => r.userId)).dedup.filterMap
      (fun uid => topOfPartition (filterNextSong log) uid)).filter
      (fun r => r.userId.isSome)).map projUser)

/-- Modelled from the spec (§4.1 User extraction): the same ranking
pipeline but with the null-`user_id` records dropped *before* ranking, the
order of operations the spec describes.  Used as the comparison point of
the refinement claim about `users_table`. -/
def users_table_prefiltered (log : List ActivityRecord) : List UserRow :=
  (((((filterNextSong log).filter (fun r => r.userId.isSome)).map
        (fun r => r.userId)).dedup.filterMap
      (fun uid => topOfPartition
        ((filterNextSong log).filter (fun r => r.userId.isSome)) uid)).map projUser)

/-- The rank-1 record of the partition of the non-null user id `u`. -/
def topRecord (log : List ActivityRecord) (u : String) : Option ActivityRecord :=
  topOfPartition (filterNextSong log) (some u)

/-- The udf `get_timestamp` (`etl.py` lines 131-136): `if x:` is Python
truthiness, so both a null `ts` and `ts = 0` map to a null `start_time`;
any other `ts` is converted (kept here as its epoch-millisecond value,
`pd.to_datetime(x, unit=ms)` being injective). -/
def get_timestamp (x : Option Int) : Option Int :=
  match x with
  | some v => if v ≠ 0 then some v else none
  | none => none

/-- Civil date (year, month, day) of a day count relative to 1970-01-01,
proleptic Gregorian calendar (the calendar behind the Spark functions
`year`, `month`, `dayofmonth`). -/
def civilFromDays (z : Int) : Int × Int × Int :=
  let z' := z + 719468
  let era := Int.ediv z' 146097
  let doe := z' - era * 146097
  let yoe := Int.ediv (doe - Int.ediv doe 1460 + Int.ediv doe 36524 - Int.ediv doe 146096) 365
  let y := yoe + era * 400
  let doy := doe - (365 * yoe + Int.ediv yoe 4 - Int.ediv yoe 100)
  let mp := Int.ediv (5 * doy + 2) 153
  let d := doy - Int.ediv (153 * mp + 2) 5 + 1
  let m := mp + (if mp < 10 then 3 else -9)
  (y + (if m ≤ 2 then 1 else 0), m, d)

/-- Day count relative to 1970-01-01 of a civil date, inverse of
`civilFromDays`. -/
def daysFromCivil (y m d : Int) : Int :=
  let y' := y - (if m ≤ 2 then 1 else 0)
  let era := Int.ediv y' 400
  let yoe := y' - era * 400
  let mp := Int.emod (m + 9) 12
  let doy := Int.ediv (153 * mp + 2) 5 + d - 1
  let doe := yoe * 365 + Int.ediv yoe 4 - Int.ediv yoe 100 + doy
  era * 146097 + doe - 719468

/-- Gregorian leap year. -/
def isLeap (y : Int) : Bool :=
  (Int.emod y 4 = 0 ∧ Int.emod y 100 ≠ 0) ∨ Int.emod y 400 = 0

/-- Abbreviated three-letter day name of a day count
(`date_format(start_time, E)`); day 0, 1970-01-01, is a Thursday. -/
def weekdayName (days : Int) : String :=
  match (Int.emod (days + 4) 7).toNat with
  | 0 => "Sun"
  | 1 => "Mon"
  | 2 => "Tue"
  | 3 => "Wed"
  | 4 => "Thu"
  | 5 => "Fri"
  | _ => "Sat"

/-- ISO-8601 week-of-year of a day count (Spark's `weekofyear`): weeks start
on Monday and week 1 is the week containing January 4. -/
def isoWeekOf (days : Int) : Int :=
  let y := (civilFromDays days).1
  let jan1 := daysFromCivil y 1 1
  let ord := days - jan1 + 1
  let wd := Int.emod (days + 3) 7 + 1
  let w := Int.ediv (ord - wd + 10) 7
  if w < 1 then
    let jan1p := daysFromCivil (y - 1) 1 1
    Int.ediv (days - jan1p + 1 - wd + 10) 7
  else if w = 53 then
    let wdJan1 := Int.emod (jan1 + 3) 7 + 1
    if wdJan1 = 4 ∨ (isLeap y ∧ wdJan1 = 3) then 53 else 1
  else w

/-- Epoch-millisecond timestamp split into (days since epoch, milliseconds
of day). -/
def epochDays (ms : Int) : Int := Int.ediv ms 86400000

/-- A row of the `time_table` (`etl.py` lines 141-147); `start_time` is kept
as the epoch-millisecond value of the non-null timestamp. -/
structure TimeRow where
  start_time : Int
  hour : Int
  day : Int
  week : Int
  month : Int
  year : Int
  weekday : String
deriving DecidableEq, Repr

/-- The time-table projection of one non-null timestamp: the Spark SQL
`SELECT start_time, hour(start_time), dayofmonth(start_time),
weekofyear(start_time), month(start_time), year(start_time),
date_format(start_time, E)`. -/
def timeRowOf (t : Int) : TimeRow :=
  { start_time := t,
    hour := Int.ediv (Int.emod t 86400000) 3600000,
    day := (civilFromDays (epochDays t)).2.2,
    week := isoWeekOf (epochDays t),
    month := (civilFromDays (epochDays t)).2.1,
    year := (civilFromDays (epochDays t)).1,
    weekday := weekdayName (epochDays t) }

/-- `time_table` (`etl.py` lines 137-147): derive `start_time` with
`get_timestamp`, keep the rows where it is not null, project the calendar
attributes and `dropDuplicates()`. -/
def time_table (log : List ActivityRecord) : List TimeRow :=
  ((filterNextSong log).filterMap (fun r => (get_timestamp r.ts).map timeRowOf)).dedup

example : timeRowOf 1541105830796 =
    { start_time := 1541105830796, hour := 20, day := 1, week := 44,
      month := 11, year := 2018, weekday := "Thu" } := by decide

/-- A row of the `songplays_table` (`etl.py` lines 164-176).  `songplay_id`
is the value of `monotonically_increasing_id()` for the source activity
record, modelled as the record's index in the filtered log: the real ids
are distinct per dataframe row but otherwise arbitrary, and the claims only
use their distinctness. -/
structure SongPlayRow where
  songplay_id : Nat
  start_time : Option Int
  song_id : Option String
  artist_id : Option String
  user_id : Option String
  session_id : Option Int
  location : Option String
  level : Option String
  user_agent : Option String
deriving DecidableEq, Repr

/-- The SQL join condition `a.song = b.title`: null on either side never
matches. -/
def titleMatches (s : Option String) (b : SongRow) : Bool :=
  match s with
  | none => false
  | some t => b.title = some t

/-- The SQL join condition `a.artist = c.name`: null on either side never
matches. -/
def nameMatches (nm : Option String) (c : ArtistRow) : Bool :=
  match nm with
  | none => false
  | some v => c.name = some v

/-- `song_id` values contributed by the `left join songs b on a.song =
b.title`: one per matching Song row, or a single null when nothing
matches. -/
def songIds (s : Option String) (songs : List SongRow) : List (Option String) :=
  match songs.filter (fun b => titleMatches s b) with
  | [] => [none]
  | ms => ms.map (fun b => b.song_id)

/-- `artist_id` values contributed by the `left join artists c on a.artist =
c.name`: one per matching Artist row, or a single null when nothing
matches. -/
def artistIds (nm : Option String) (artists : List ArtistRow) : List (Option String) :=
  match artists.filter (fun c => nameMatches nm c) with
  | [] => [none]
  | ms => ms.map (fun c => c.artist_id)

/-- The SongPlay rows produced from one activity record with id `i`: the
cartesian product of its Song matches and Artist matches, projected to the
SongPlay schema (`a.location` is the log record's `location`). -/
def rowsFor (songs : List SongRow) (artists : List ArtistRow) (i : Nat)
    (r : ActivityRecord) : List SongPlayRow :=
  (songIds r.song songs).flatMap (fun sid =>
    (artistIds r.artist artists).map (fun aid =>
      { songplay_id := i, start_time := get_timestamp r.ts, song_id := sid,
        artist_id := aid, user_id := r.userId, session_id := r.sessionId,
        location := r.location, level := r.level, user_agent := r.userAgent }))

/-- Joined rows of the whole filtered log, the record at position `j`
receiving id `i + j`. -/
def songplaysRows (songs : List SongRow) (artists : List ArtistRow) :
    Nat → List ActivityRecord → List SongPlayRow
  | _, [] => []
  | i, r :: rest => rowsFor songs artists i r ++ songplaysRows songs artists (i + 1) rest

/-- `songplays_table` (`etl.py` lines 152-176): rebuild the Song and Artist
tables from the catalog (the parquet round trip of lines 153-154 is the
identity on rows), assign ids to the filtered log, left-join by song title
and artist name, project and `dropDuplicates()`. -/
def songplays_table (catalog : List CatalogRecord) (log : List ActivityRecord) :
    List SongPlayRow :=
  (songplaysRows (songs_table catalog) (artists_table catalog) 0 (filterNextSong log)).dedup

/-! ### Helper lemmas about the window ordering -/

theorem tsBetter_irrefl (a : ActivityRecord) : tsBetter a a = false := by
  unfold tsBetter
  cases a.ts <;> simp

theorem tsBetter_trans_false {a b c : ActivityRecord}
    (h₁ : tsBetter a b = false) (h₂ : tsBetter b c = false) : tsBetter a c = false := by
  unfold tsBetter at *
  cases ha : a.ts <;> cases hb : b.ts <;> cases hc : c.ts <;>
    simp [ha, hb, hc] at * <;> omega

theorem tsBetter_asymm {a b : ActivityRecord}
    (h : tsBetter a b = true) : tsBetter b a = false := by
  unfold tsBetter at *
  cases ha : a.ts <;> cases hb : b.ts <;> simp [ha, hb] at * <;> omega

theorem pickLatest_mem (first : ActivityRecord) (rest : List ActivityRecord) :
    pickLatest first rest ∈ first :: rest := by
  induction rest generalizing first with
  | nil => simp [pickLatest]
  | cons y rest ih =>
    have hstep : pickLatest first (y :: rest) =
        pickLatest (if tsBetter y first then y else first) rest := rfl
    rw [hstep]
    rcases List.mem_cons.mp (ih (if tsBetter y first then y else first)) with h | h
    · rw [h]
      by_cases hb : tsBetter y first = true
      · simp [hb]
      · simp [hb]
    · simp [h]

theorem pickLatest_maximal (first : ActivityRecord) (rest : List ActivityRecord) :
    ∀ x ∈ first :: rest, tsBetter x (pickLatest first rest) = false := by
  induction rest generalizing first with
  | nil =>
    intro x hx
    rcases List.mem_cons.mp hx with h | h
    · rw [h]; exact tsBetter_irrefl first
    · simp at h
  | cons y rest ih =>
    intro x hx
    have hstep : pickLatest first (y :: rest) =
        pickLatest (if tsBetter y first then y else first) rest := rfl
    rw [hstep]
    by_cases hb : tsBetter y first = true
    · rw [if_pos hb]
      rcases List.mem_cons.mp hx with h | h
      · rw [h]
        have h₁ : tsBetter first y = false := tsBetter_asymm hb
        have h₂ : tsBetter y (pickLatest y rest) = false :=
          ih y y (List.mem_cons_self y rest)
        exact tsBetter_trans_false h₁ h₂
      · rcases List.mem_cons.mp h with h' | h'
        · rw [h']; exact ih y y (List.mem_cons_self y rest)
        · exact ih y x (List.mem_cons_of_mem y h')
    · rw [if_neg hb]
      rw [Bool.not_eq_true] at hb
      rcases List.mem_cons.mp hx with h | h
      · rw [h]; exact ih first first (List.mem_cons_self first rest)
      · rcases List.mem_cons.mp h with h' | h'
        · rw [h']
          have h₁ : tsBetter y first = false := hb
          have h₂ : tsBetter first (pickLatest first rest) = false :=
            ih first first (List.mem_cons_self first rest)
          exact tsBetter_trans_false h₁ h₂
        · exact ih first x (List.mem_cons_of_mem first h')

theorem selectTop_mem {l : List ActivityRecord} {r : ActivityRecord}
    (h : selectTop l = some r) : r ∈ l := by
  cases l with
  | nil => simp [selectTop] at h
  | cons a rest =>
    simp only [selectTop, Option.some.injEq] at h
    rw [← h]
    exact pickLatest_mem a rest

theorem selectTop_maximal {l : List ActivityRecord} {r : ActivityRecord}
    (h : selectTop l = some r) : ∀ x ∈ l, tsBetter x r = false := by
  cases l with
  | nil => simp [selectTop] at h
  | cons a rest =>
    simp only [selectTop, Option.some.injEq] at h
    rw [← h]
    exact pickLatest_maximal a rest

theorem selectTop_isSome {l : List ActivityRecord} (h : l ≠ []) :
    (selectTop l).isSome := by
  cases l with
  | nil => exact absurd rfl h
  | cons a rest => simp [selectTop]

/-! ### Helper lemmas about the user partitions -/

theorem topOfPartition_spec {f : List ActivityRecord} {uid : Option String}
    {r : ActivityRecord} (h : topOfPartition f uid = some r) :
    r ∈ f ∧ r.userId = uid := by
  have hmem := selectTop_mem h
  have := List.mem_filter.mp hmem
  exact ⟨this.1, of_decide_eq_true this.2⟩

theorem mem_users_aux {f : List ActivityRecord} {uids : List (Option String)}
    {row : ActivityRecord}
    (h : row ∈ uids.filterMap (fun uid => topOfPartition f uid)) :
    row ∈ f ∧ row.userId ∈ uids := by
  obtain ⟨uid, huid, htop⟩ := List.mem_filterMap.mp h
  obtain ⟨hf, hid⟩ := topOfPartition_spec htop
  exact ⟨hf, hid ▸ huid⟩

theorem nodup_userId_filterMap (f : List ActivityRecord)
    {uids : List (Option String)} (h : uids.Nodup) :
    ((uids.filterMap (fun uid => topOfPartition f uid)).map
      (fun r => r.userId)).Nodup := by
  induction uids with
  | nil => simp
  | cons uid rest ih =>
    have hrest := ih (List.Nodup.of_cons h)
    have hnotin : uid ∉ rest := (List.nodup_cons.mp h).1
    cases htop : topOfPartition f uid with
    | none => simpa [List.filterMap_cons, htop] using hrest
    | some r =>
      have hid : r.userId = uid := (topOfPartition_spec htop).2
      simp only [List.filterMap_cons, htop, List.map_cons, List.nodup_cons]
      refine ⟨?_, hrest⟩
      intro hmem
      obtain ⟨row, hrow, heq⟩ := List.mem_map.mp hmem
      have := (mem_users_aux hrow).2
      rw [heq, hid] at this
      exact hnotin this

/-! ### Helper lemmas about `dedup`, `filter` and `filterMap` -/

theorem filterMap_key_filter (f : List ActivityRecord) (p : Option String → Bool) :
    ∀ uids : List (Option String),
      (uids.filterMap (fun uid => topOfPartition f uid)).filter (fun r => p r.userId) =
        (uids.filter p).filterMap (fun uid => topOfPartition f uid) := by
  intro uids
  induction uids with
  | nil => simp
  | cons uid rest ih =>
    cases htop : topOfPartition f uid with
    | none =>
      cases hp : p uid with
      | false => simpa [List.filterMap_cons, List.filter_cons, htop, hp] using ih
      | true => simpa [List.filterMap_cons, List.filter_cons, htop, hp] using ih
    | some r =>
      have hid : r.userId = uid := (topOfPartition_spec htop).2
      cases hp : p uid with
      | false => simpa [List.filterMap_cons, List.filter_cons, htop, hp, hid] using ih
      | true => simpa [List.filterMap_cons, List.filter_cons, htop, hp, hid] using ih

theorem filter_dedup {α : Type} [DecidableEq α] (p : α → Bool) :
    ∀ l : List α, l.dedup.filter p = (l.filter p).dedup := by
  intro l
  induction l with
  | nil => simp
  | cons a l ih =>
    by_cases hmem : a ∈ l
    · rw [List.dedup_cons_of_mem hmem]
      cases hp : p a with
      | false => rw [List.filter_cons_of_neg (by simp [hp]), ih]
      | true =>
        have : a ∈ l.filter p := List.mem_filter.mpr ⟨hmem, hp⟩
        rw [List.filter_cons_of_pos hp, List.dedup_cons_of_mem this, ih]
    · rw [List.dedup_cons_of_not_mem hmem]
      cases hp : p a with
      | false => rw [List.filter_cons_of_neg (by simp [hp]), List.filter_cons_of_neg (by simp [hp]), ih]
      | true =>
        have : a ∉ l.filter p := fun hc => hmem (List.mem_filter.mp hc).1
        rw [List.filter_cons_of_pos hp, List.filter_cons_of_pos hp,
          List.dedup_cons_of_not_mem this, ih]

theorem union_of_subset {α : Type} [DecidableEq α] {l₁ l₂ : List α}
    (h : ∀ a ∈ l₁, a ∈ l₂) : l₁ ∪ l₂ = l₂ := by
  induction l₁ with
  | nil => simp
  | cons a l ih =>
    have hrest : l ∪ l₂ = l₂ := ih (fun x hx => h x (List.mem_cons_of_mem a hx))
    have ha : a ∈ l ∪ l₂ := List.mem_union_iff.mpr (Or.inr (h a (List.mem_cons_self a l)))
    calc (a :: l) ∪ l₂ = (l ∪ l₂).insert a := rfl
    _ = l ∪ l₂ := List.insert_of_mem ha
    _ = l₂ := hrest

theorem dedup_append_self {α : Type} [DecidableEq α] (l : List α) :
    (l ++ l).dedup = l.dedup := by
  rw [List.dedup_append]
  exact union_of_subset (fun a ha => List.mem_dedup.mpr ha)

/-! ### Helper lemmas about the fact builder -/

theorem songIds_ne_nil (s : Option String) (songs : List SongRow) :
    songIds s songs ≠ [] := by
  unfold songIds
  cases h : songs.filter (fun b => titleMatches s b) with
  | nil => simp
  | cons b bs => simp

theorem artistIds_ne_nil (nm : Option String) (artists : List ArtistRow) :
    artistIds nm artists ≠ [] := by
  unfold artistIds
  cases h : artists.filter (fun c => nameMatches nm c) with
  | nil => simp
  | cons c cs => simp

theorem mem_rowsFor {songs : List SongRow} {artists : List ArtistRow} {i : Nat}
    {r : ActivityRecord} {row : SongPlayRow} (h : row ∈ rowsFor songs artists i r) :
    row.songplay_id = i ∧ row.start_time = get_timestamp r.ts ∧
      row.user_id = r.userId ∧ row.session_id = r.sessionId ∧
      row.location = r.location ∧ row.level = r.level ∧
      row.user_agent = r.userAgent ∧
      row.song_id ∈ songIds r.song songs ∧ row.artist_id ∈ artistIds r.artist artists := by
  obtain ⟨sid, hsid, hmap⟩ := List.mem_flatMap.mp h
  obtain ⟨aid, haid, heq⟩ := List.mem_map.mp hmap
  subst heq
  exact ⟨rfl, rfl, rfl, rfl, rfl, rfl, rfl, hsid, haid⟩

theorem rowsFor_ne_nil (songs : List SongRow) (artists : List ArtistRow) (i : Nat)
    (r : ActivityRecord) : rowsFor songs artists i r ≠ [] := by
  unfold rowsFor
  obtain ⟨sid, hsid⟩ := List.exists_mem_of_ne_nil _ (songIds_ne_nil r.song songs)
  obtain ⟨aid, haid⟩ := List.exists_mem_of_ne_nil _ (artistIds_ne_nil r.artist artists)
  intro hnil
  have : _ ∈ ([] : List SongPlayRow) := hnil ▸ List.mem_flatMap.mpr
    ⟨sid, hsid, List.mem_map.mpr ⟨aid, haid, rfl⟩⟩
  simp at this

theorem mem_songplaysRows {songs : List SongRow} {artists : List ArtistRow}
    {row : SongPlayRow} :
    ∀ {f : List ActivityRecord} {i : Nat}, row ∈ songplaysRows songs artists i f →
      ∃ j r, f[j]? = some r ∧ row ∈ rowsFor songs artists (i + j) r := by
  intro f
  induction f with
  | nil => intro i h; simp [songplaysRows] at h
  | cons r rest ih =>
    intro i h
    rcases List.mem_append.mp h with h' | h'
    · exact ⟨0, r, by simp, by simpa using h'⟩
    · obtain ⟨j, r', hj, hmem⟩ := ih h'
      exact ⟨j + 1, r', by simpa using hj, by
        have : i + 1 + j = i + (j + 1) := by omega
        rwa [this] at hmem⟩

theorem rowsFor_subset_songplaysRows {songs : List SongRow} {artists : List ArtistRow} :
    ∀ {f : List ActivityRecord} {i j : Nat} {r : ActivityRecord}, f[j]? = some r →
      ∀ x ∈ rowsFor songs artists (i + j) r, x ∈ songplaysRows songs artists i f := by
  intro f
  induction f with
  | nil => intro i j r hj; simp at hj
  | cons hd rest ih =>
    intro i j r hj x hx
    cases j with
    | zero =>
      simp only [List.getElem?_cons_zero, Option.some.injEq] at hj
      subst hj
      exact List.mem_append.mpr (Or.inl (by simpa using hx))
    | succ j' =>
      simp only [List.getElem?_cons_succ] at hj
      refine List.mem_append.mpr (Or.inr (ih hj x ?_))
      have : i + (j' + 1) = i + 1 + j' := by omega
      rwa [this] at hx

/-! ### Concrete records used by counterexamples and witnesses -/

/-- A catalog record with every field null. -/
def blankCatalog : CatalogRecord :=
  { artist_id := none, artist_latitude := none, artist_location := none,
    artist_longitude := none, artist_name := none, duration := none,
    num_songs := none, song_id := none, title := none, year := none }

/-- An activity record with every field null. -/
def blankActivity : ActivityRecord :=
  { artist := none, auth := none, firstName := none, gender := none,
    itemInSession := none, lastName := none, length := none, level := none,
    location := none, method := none, page := none, registration := none,
    sessionId := none, song := none, status := none, ts := none,
    userAgent := none, userId := none }

/-- Two catalog records sharing `song_id` and `artist_id` but differing in
`title` (resp. `location`). -/
def catRecA : CatalogRecord :=
  { blankCatalog with
    song_id := some "s1", title := some "A",
    artist_id := some "a1", artist_name := some "AN" }

/-- Second record of the duplicate-key catalog. -/
def catRecB : CatalogRecord :=
  { blankCatalog with
    song_id := some "s1", title := some "B",
    artist_id := some "a1", artist_location := some "LA" }

/-- A catalog whose two records share their keys but differ elsewhere. -/
def catDupKey : List CatalogRecord := [catRecA, catRecB]

/-- Two catalog records with the same `title` but different `song_id`
(join fan-out input). -/
def catDupTitle : List CatalogRecord :=
  [{ blankCatalog with
    song_id := some "s1", title := some "T",
     artist_id := some "a1", artist_name := some "AN" },
   { blankCatalog with
    song_id := some "s2", title := some "T",
     artist_id := some "a1", artist_name := some "AN" }]

/-- One `NextSong` activity record playing title `T` by artist `AN`. -/
def playRec : ActivityRecord :=
  { blankActivity with
    page := some "NextSong", song := some "T",
    artist := some "AN", ts := some 5, userId := some "u1",
    sessionId := some 7, level := some "free" }

/-- A log holding just `playRec`. -/
def logOnePlay : List ActivityRecord := [playRec]

/-- The user-ranking example: one user, records at `ts` 100, 300, 200 with
`level` free, paid, free. -/
def userRec100 : ActivityRecord :=
  { blankActivity with
    page := some "NextSong", userId := some "u1",
    ts := some 100, level := some "free", firstName := some "F",
    lastName := some "L", gender := some "M" }

/-- The `ts = 300` record of the ranking example. -/
def userRec300 : ActivityRecord :=
  { blankActivity with
    page := some "NextSong", userId := some "u1",
    ts := some 300, level := some "paid", firstName := some "F",
    lastName := some "L", gender := some "M" }

/-- The `ts = 200` record of the ranking example. -/
def userRec200 : ActivityRecord :=
  { blankActivity with
    page := some "NextSong", userId := some "u1",
    ts := some 200, level := some "free", firstName := some "F",
    lastName := some "L", gender := some "M" }

/-- The full ranking-example log. -/
def logUser3 : List ActivityRecord := [userRec100, userRec300, userRec200]

/-- A `NextSong` record with `ts = 0`. -/
def recZeroTs : ActivityRecord :=
  { blankActivity with
    page := some "NextSong", ts := some 0 }

/-- A `NextSong` record with the spec's example timestamp. -/
def recTsExample : ActivityRecord :=
  { blankActivity with
    page := some "NextSong", ts := some 1541105830796 }

/-- Two records of one user with equal `ts` and different `level`. -/
def tieRecFree : ActivityRecord :=
  { blankActivity with
    page := some "NextSong", userId := some "u1",
    ts := some 100, level := some "free" }

/-- The other half of the equal-`ts` tie. -/
def tieRecPaid : ActivityRecord :=
  { blankActivity with
    page := some "NextSong", userId := some "u1",
    ts := some 100, level := some "paid" }

/-- A log with an equal-`ts` tie. -/
def logTie : List ActivityRecord := [tieRecFree, tieRecPaid]

example : songs_table [] = [] := by decide
example : users_table logUser3 =
    [{ user_id := some "u1", first_name := some "F", last_name := some "L",
       gender := some "M", level := some "paid" }] := by decide
example : time_table [recZeroTs] = [] := by decide
example : ¬ ((songs_table catDupKey).map (fun s => s.song_id)).Nodup := by decide
example : (songplays_table catDupTitle logOnePlay).map (fun row => row.songplay_id) = [0, 0] := by decide

/-! ### Helper: user ids of the produced User table are distinct -/

theorem users_userId_nodup (log : List ActivityRecord) :
    ((users_table log).map (fun row => row.user_id)).Nodup := by
  unfold users_table
  rw [List.map_map]
  have hcomp : ((fun row : UserRow => row.user_id) ∘ projUser) =
      (fun r : ActivityRecord => r.userId) := rfl
  rw [hcomp]
  have hsub : (((((filterNextSong log).map (fun r => r.userId)).dedup.filterMap
        (fun uid => topOfPartition (filterNextSong log) uid)).filter
        (fun r => r.userId.isSome)).map (fun r => r.userId)).Sublist
      (((((filterNextSong log).map (fun r => r.userId)).dedup.filterMap
        (fun uid => topOfPartition (filterNextSong log) uid))).map
        (fun r => r.userId)) :=
    List.Sublist.map _ (List.filter_sublist _)
  exact List.Nodup.sublist hsub
    (nodup_userId_filterMap (filterNextSong log) (List.nodup_dedup _))

/-- C1 counterexample: the claim "all Song rows have pairwise-distinct
`song_id` values and all Artist rows have pairwise-distinct `artist_id`
values" is false: on the two-record catalog `catDupKey`, whose records share
`song_id = "s1"` and `artist_id = "a1"` but differ in `title` (resp.
`location`), the produced Song table has two rows with the same `song_id`
and the produced Artist table two rows with the same `artist_id`. -/
theorem c1_keys_counterexample :
    ¬ ((songs_table catDupKey).map (fun s => s.song_id)).Nodup ∧
      ¬ ((artists_table catDupKey).map (fun a => a.artist_id)).Nodup := by
  refine ⟨?_, ?_⟩ <;> decide

/-- C1 (amended): for every input, User rows have pairwise-distinct
`user_id` values; Song and Artist rows are pairwise distinct as whole rows
and carry non-null keys, but `song_id` / `artist_id` values themselves need
not be distinct. -/
theorem c1_key_uniqueness (catalog : List CatalogRecord) (log : List ActivityRecord) :
    ((users_table log).map (fun row => row.user_id)).Nodup ∧
      (songs_table catalog).Nodup ∧ (artists_table catalog).Nodup ∧
      (∀ s ∈ songs_table catalog, s.song_id.isSome) ∧
      (∀ a ∈ artists_table catalog, a.artist_id.isSome) := by
  refine ⟨users_userId_nodup log, List.nodup_dedup _, List.nodup_dedup _, ?_, ?_⟩
  · intro s hs
    have := (List.mem_filter.mp (List.mem_dedup.mp hs)).2
    exact this
  · intro a ha
    have := (List.mem_filter.mp (List.mem_dedup.mp ha)).2
    exact this

/-- C1 witness: the amended statement applied to the concrete inputs
`catDupKey` and `logUser3`. -/
theorem c1_key_uniqueness_witness :
    ((users_table logUser3).map (fun row => row.user_id)).Nodup ∧
      (songRowOf catRecA).song_id.isSome ∧ (artistRowOf catRecA).artist_id.isSome :=
  ⟨(c1_key_uniqueness catDupKey logUser3).1,
   (c1_key_uniqueness catDupKey logUser3).2.2.2.1 (songRowOf catRecA) (by decide),
   (c1_key_uniqueness catDupKey logUser3).2.2.2.2 (artistRowOf catRecA) (by decide)⟩

/-- C6: Song/Artist deduplication is whole-row, not key-based: two catalog
records sharing a `song_id` (resp. `artist_id`) but differing in another
projected attribute both keep their rows in the produced table, and the
produced tables have no duplicate rows (only rows equal in every projected
field collapse). -/
theorem c6_whole_row_dedup (catalog : List CatalogRecord) (r₁ r₂ : CatalogRecord)
    (h₁ : r₁ ∈ catalog) (h₂ : r₂ ∈ catalog) :
    ((songRowOf r₁).song_id.isSome → (songRowOf r₁).song_id = (songRowOf r₂).song_id →
        songRowOf r₁ ≠ songRowOf r₂ →
        songRowOf r₁ ∈ songs_table catalog ∧ songRowOf r₂ ∈ songs_table catalog) ∧
      ((artistRowOf r₁).artist_id.isSome →
        (artistRowOf r₁).artist_id = (artistRowOf r₂).artist_id →
        artistRowOf r₁ ≠ artistRowOf r₂ →
        artistRowOf r₁ ∈ artists_table catalog ∧ artistRowOf r₂ ∈ artists_table catalog) ∧
      (songs_table catalog).Nodup ∧ (artists_table catalog).Nodup := by
  refine ⟨?_, ?_, List.nodup_dedup _, List.nodup_dedup _⟩
  · intro hkey heq _
    constructor
    · exact List.mem_dedup.mpr (List.mem_filter.mpr ⟨List.mem_map_of_mem songRowOf h₁, hkey⟩)
    · exact List.mem_dedup.mpr (List.mem_filter.mpr
        ⟨List.mem_map_of_mem songRowOf h₂, heq ▸ hkey⟩)
  · intro hkey heq _
    constructor
    · exact List.mem_dedup.mpr (List.mem_filter.mpr ⟨List.mem_map_of_mem artistRowOf h₁, hkey⟩)
    · exact List.mem_dedup.mpr (List.mem_filter.mpr
        ⟨List.mem_map_of_mem artistRowOf h₂, heq ▸ hkey⟩)

/-- C6 witness: on the catalog `catDupKey`, both duplicate-key Song rows and
both duplicate-key Artist rows are present. -/
theorem c6_whole_row_dedup_witness :
    (songRowOf catRecA ∈ songs_table catDupKey ∧ songRowOf catRecB ∈ songs_table catDupKey) ∧
      (artistRowOf catRecA ∈ artists_table catDupKey ∧
        artistRowOf catRecB ∈ artists_table catDupKey) :=
  ⟨(c6_whole_row_dedup catDupKey catRecA catRecB (by decide) (by decide)).1
      (by decide) (by decide) (by decide),
   (c6_whole_row_dedup catDupKey catRecA catRecB (by decide) (by decide)).2.1
      (by decide) (by decide) (by decide)⟩

/-- C8: Song/Artist extraction is idempotent under repetition: the union of
two runs on the same catalog, deduplicated, is exactly the single-run
table. -/
theorem c8_extraction_idempotent (catalog : List CatalogRecord) :
    (songs_table catalog ++ songs_table catalog).dedup = songs_table catalog ∧
      (artists_table catalog ++ artists_table catalog).dedup = artists_table catalog := by
  constructor
  · rw [dedup_append_self]
    exact List.Nodup.dedup (List.nodup_dedup _)
  · rw [dedup_append_self]
    exact List.Nodup.dedup (List.nodup_dedup _)

/-- C3: for every non-null user id appearing among the `NextSong` activity
records, its window partition has a rank-1 record; that record belongs to
the filtered log, carries that user id, has maximal `ts` in the partition,
and the User table contains its projection and no other row with that
user id. -/
theorem c3_user_latest (log : List ActivityRecord) (u : String) (r₀ : ActivityRecord)
    (hmem : r₀ ∈ filterNextSong log) (hid : r₀.userId = some u) :
    (topRecord log u).isSome ∧
      ∀ r, topRecord log u = some r →
        r ∈ filterNextSong log ∧ r.userId = some u ∧
          (∀ x ∈ filterNextSong log, x.userId = some u → tsBetter x r = false) ∧
          projUser r ∈ users_table log ∧
          ∀ row ∈ users_table log, row.user_id = some u → row = projUser r := by
  constructor
  · have hpart : r₀ ∈ (filterNextSong log).filter (fun x => x.userId = some u) :=
      List.mem_filter.mpr ⟨hmem, by simp [hid]⟩
    exact selectTop_isSome (List.ne_nil_of_mem hpart)
  · intro r htop
    obtain ⟨hrf, hrid⟩ := topOfPartition_spec htop
    refine ⟨hrf, hrid, ?_, ?_, ?_⟩
    · intro x hx hxid
      exact selectTop_maximal htop x (List.mem_filter.mpr ⟨hx, by simp [hxid]⟩)
    · unfold users_table
      refine List.mem_map_of_mem projUser (List.mem_filter.mpr ⟨?_, ?_⟩)
      · refine List.mem_filterMap.mpr ⟨some u, ?_, htop⟩
        exact List.mem_dedup.mpr (List.mem_map.mpr ⟨r₀, hmem, hid⟩)
      · rw [hrid]; rfl
    · intro row hrow hrowid
      unfold users_table at hrow
      obtain ⟨y, hy, hyrow⟩ := List.mem_map.mp hrow
      have hyfm := (List.mem_filter.mp hy).1
      obtain ⟨uid, _, htopy⟩ := List.mem_filterMap.mp hyfm
      have hyid : y.userId = uid := (topOfPartition_spec htopy).2
      have huid : uid = some u := by
        rw [← hyid]
        rw [← hyrow] at hrowid
        exact hrowid
      rw [huid] at htopy
      have : y = r := by
        have := htop.symm.trans htopy
        exact (Option.some.injEq r y).mp (by rw [this]) |>.symm
      rw [← hyrow, this]

/-- C3 witness: on the ranking example (`ts` 100, 300, 200 with `level`
free, paid, free) the User row is the projection of the `ts = 300` record
and has `level = "paid"`. -/
theorem c3_user_latest_witness :
    projUser userRec300 ∈ users_table logUser3 ∧
      (projUser userRec300).level = some "paid" := by
  have h := (c3_user_latest logUser3 "u1" userRec100 (by decide) (by decide)).2
    userRec300 (by decide)
  exact ⟨h.2.2.2.1, by decide⟩

/-- C9: user extraction is deterministic: two runs on the same input
produce the same User table, and on an equal-`ts` tie the selected record
is determined (the first of the tied records in input order), so a rerun
reproduces it. -/
theorem c9_user_deterministic (log₁ log₂ : List ActivityRecord) (h : log₁ = log₂) :
    users_table log₁ = users_table log₂ ∧
      users_table logTie = [projUser tieRecFree] :=
  ⟨congrArg users_table h, by decide⟩

/-- C9 witness: the determinism statement applied to the tie input. -/
theorem c9_user_deterministic_witness :
    users_table logTie = users_table logTie ∧
      users_table logTie = [projUser tieRecFree] :=
  c9_user_deterministic logTie logTie rfl

/-- C10: filtering out null `userId` after ranking, as the code does, is
output-equivalent to dropping null-`userId` records before ranking: the
null partition is removed whole and never affects any non-null partition's
selection, so `users_table` equals the spec-ordered `users_table_prefiltered`
on every input. -/
theorem c10_postfilter_refines_prefilter (log : List ActivityRecord) :
    users_table log = users_table_prefiltered log := by
  unfold users_table users_table_prefiltered
  rw [filterMap_key_filter (filterNextSong log) Option.isSome]
  have hkeys : (((filterNextSong log).map (fun r => r.userId)).dedup.filter Option.isSome) =
      ((((filterNextSong log).filter (fun r => r.userId.isSome)).map
        (fun r => r.userId)).dedup) := by
    rw [filter_dedup]
    congr 1
    exact List.filter_map (fun r : ActivityRecord => r.userId) (filterNextSong log)
  rw [hkeys]
  have hparts : ∀ uid ∈ ((((filterNextSong log).filter (fun r => r.userId.isSome)).map
      (fun r => r.userId)).dedup),
      topOfPartition (filterNextSong log) uid =
        topOfPartition ((filterNextSong log).filter (fun r => r.userId.isSome)) uid := by
    intro uid hm
    obtain ⟨r, hr, hru⟩ := List.mem_map.mp (List.mem_dedup.mp hm)
    have hsome : r.userId.isSome := (List.mem_filter.mp hr).2
    obtain ⟨v, hv⟩ := Option.isSome_iff_exists.mp hsome
    unfold topOfPartition
    congr 1
    rw [List.filter_filter]
    refine (List.filter_congr ?_).symm
    intro x _
    by_cases hx : x.userId = uid
    · have huid : uid.isSome := hru ▸ hsome
      simp [hx, huid]
    · simp [hx]
  rw [List.filterMap_congr hparts]

/-- C5 counterexample: the claim "every record with a non-null `ts`
(including `ts = 0`) contributes a TimeRow" is false: `recZeroTs` has
`page = "NextSong"` and the non-null `ts = 0`, yet the Time table of the
log containing only it is empty (`if x:` in `get_timestamp` treats 0 as
falsy). -/
theorem c5_ts_zero_counterexample :
    recZeroTs.page = some "NextSong" ∧ recZeroTs.ts = some 0 ∧
      time_table [recZeroTs] = [] := ⟨rfl, rfl, by decide⟩

/-- C5 (amended): the Time table has no duplicate rows and contains exactly
the calendar row of every distinct `ts` that is non-null *and nonzero*
among the `NextSong` records; records with null or zero `ts` are silently
excluded. -/
theorem c5_time_rows (log : List ActivityRecord) :
    (time_table log).Nodup ∧
      ∀ row, row ∈ time_table log ↔
        ∃ t, row = timeRowOf t ∧ t ≠ 0 ∧ ∃ r ∈ filterNextSong log, r.ts = some t := by
  refine ⟨List.nodup_dedup _, ?_⟩
  intro row
  have hmem : row ∈ time_table log ↔
      ∃ r ∈ filterNextSong log, (get_timestamp r.ts).map timeRowOf = some row := by
    unfold time_table
    rw [List.mem_dedup, List.mem_filterMap]
  rw [hmem]
  constructor
  · rintro ⟨r, hr, hmap⟩
    cases hts : r.ts with
    | none => rw [hts] at hmap; simp [get_timestamp] at hmap
    | some t =>
      rw [hts] at hmap
      by_cases h0 : t = 0
      · subst h0; simp [get_timestamp] at hmap
      · have hmap' : timeRowOf t = row := by simpa [get_timestamp, h0] using hmap
        exact ⟨t, hmap'.symm, h0, r, hr, hts⟩
  · rintro ⟨t, hrow, h0, r, hr, hts⟩
    exact ⟨r, hr, by simp [hts, get_timestamp, h0, hrow]⟩

/-- C5 witness: the amended statement applied to `logOnePlay`, whose only
record has `ts = 5`: the row of timestamp 5 is in the Time table. -/
theorem c5_time_rows_witness : timeRowOf 5 ∈ time_table logOnePlay :=
  ((c5_time_rows logOnePlay).2 (timeRowOf 5)).mpr
    ⟨5, rfl, by decide, playRec, by decide, rfl⟩

/-- C7 counterexample: the claim that `ts = 1541105830796` derives
`hour = 21` is false: the hour column of the Time table produced from that
record is 20 (the instant is 2018-11-01T20:57:10.796Z, not 21:37:10Z). -/
theorem c7_hour_counterexample :
    (time_table [recTsExample]).map (fun row => row.hour) ≠ [21] ∧
      (time_table [recTsExample]).map (fun row => row.hour) = [20] := by
  refine ⟨?_, ?_⟩ <;> decide

/-- C7 (amended): for `ts = 1541105830796` the derived time row has
`year = 2018`, `month = 11`, `day = 1`, `hour = 20` and
`weekday = "Thu"` (with `week = 44`). -/
theorem c7_time_derivation :
    time_table [recTsExample] =
      [{ start_time := 1541105830796, hour := 20, day := 1, week := 44,
         month := 11, year := 2018, weekday := "Thu" }] := by decide

/-- C2 counterexample: `songplay_id` values are not pairwise distinct when
the name join fans out: the id is attached to the activity record *before*
the join, so on `catDupTitle` (two songs titled `T`) the single play of `T`
yields two SongPlay rows carrying the same id. -/
theorem c2_songplay_id_counterexample :
    ¬ ((songplays_table catDupTitle logOnePlay).map
        (fun row => row.songplay_id)).Nodup := by decide

/-- C2 (amended): `songplay_id` identifies the source activity record, so
it is unique per filtered activity record — distinct records always get
distinct ids — but all rows fanned out of one record by the name join
share that record's id: every SongPlay row's id indexes the filtered-log
record that produced the row, whose activity-side columns the row carries. -/
theorem c2_songplay_id_per_record (catalog : List CatalogRecord)
    (log : List ActivityRecord) (row : SongPlayRow)
    (h : row ∈ songplays_table catalog log) :
    ∃ r, (filterNextSong log)[row.songplay_id]? = some r ∧
      row.start_time = get_timestamp r.ts ∧ row.user_id = r.userId ∧
      row.session_id = r.sessionId ∧ row.location = r.location ∧
      row.level = r.level ∧ row.user_agent = r.userAgent := by
  unfold songplays_table at h
  obtain ⟨j, r, hj, hrow⟩ := mem_songplaysRows (List.mem_dedup.mp h)
  obtain ⟨hid, hst, huid, hsid, hloc, hlev, hua, -, -⟩ := mem_rowsFor hrow
  refine ⟨r, ?_, hst, huid, hsid, hloc, hlev, hua⟩
  rw [hid]
  simpa using hj

/-- C2 witness: the amended statement applied to the fan-out example: the
id of a produced row indexes a record of the filtered log. -/
theorem c2_songplay_id_per_record_witness :
    ((filterNextSong logOnePlay)[(0 : Nat)]?).isSome := by
  obtain ⟨r, hr, -⟩ := c2_songplay_id_per_record catDupTitle logOnePlay
    { songplay_id := 0, start_time := some 5, song_id := some "s1",
      artist_id := some "a1", user_id := some "u1", session_id := some 7,
      location := none, level := some "free", user_agent := none } (by decide)
  rw [hr]
  rfl

/-- C4: every `NextSong` activity record produces at least one SongPlay
row — the SongPlay table is at least as long as the filtered log — and a
join miss is not an error: the record at index `j` always has a row with
id `j`, whose `song_id` (resp. `artist_id`) is null whenever no Song title
(resp. Artist name) matches. -/
theorem c4_outer_join_completeness (catalog : List CatalogRecord)
    (log : List ActivityRecord) :
    (filterNextSong log).length ≤ (songplays_table catalog log).length ∧
      ∀ j r, (filterNextSong log)[j]? = some r →
        ∃ row ∈ songplays_table catalog log, row.songplay_id = j ∧
          ((songs_table catalog).filter (fun b => titleMatches r.song b) = [] →
            row.song_id = none) ∧
          ((artists_table catalog).filter (fun c => nameMatches r.artist c) = [] →
            row.artist_id = none) := by
  have hall : ∀ j r, (filterNextSong log)[j]? = some r →
      ∃ row ∈ songplays_table catalog log, row.songplay_id = j ∧
        ((songs_table catalog).filter (fun b => titleMatches r.song b) = [] →
          row.song_id = none) ∧
        ((artists_table catalog).filter (fun c => nameMatches r.artist c) = [] →
          row.artist_id = none) := by
    intro j r hj
    obtain ⟨x, hx⟩ := List.exists_mem_of_ne_nil _
      (rowsFor_ne_nil (songs_table catalog) (artists_table catalog) (0 + j) r)
    have hxin : x ∈ songplaysRows (songs_table catalog) (artists_table catalog) 0
        (filterNextSong log) := rowsFor_subset_songplaysRows hj x hx
    obtain ⟨hid, -, -, -, -, -, -, hsin, hain⟩ := mem_rowsFor hx
    refine ⟨x, List.mem_dedup.mpr hxin, by omega, ?_, ?_⟩
    · intro hfil
      have : songIds r.song (songs_table catalog) = [none] := by
        unfold songIds
        rw [hfil]
      rw [this] at hsin
      exact List.mem_singleton.mp hsin
    · intro hfil
      have : artistIds r.artist (artists_table catalog) = [none] := by
        unfold artistIds
        rw [hfil]
      rw [this] at hain
      exact List.mem_singleton.mp hain
  refine ⟨?_, hall⟩
  have hsub : Finset.range (filterNextSong log).length ⊆
      ((songplays_table catalog log).map (fun row => row.songplay_id)).toFinset := by
    intro j hj
    have hj' : j < (filterNextSong log).length := Finset.mem_range.mp hj
    obtain ⟨row, hrow, hid, -, -⟩ :=
      hall j (filterNextSong log)[j] (List.getElem?_eq_getElem hj')
    exact List.mem_toFinset.mpr (List.mem_map.mpr ⟨row, hrow, hid⟩)
  calc (filterNextSong log).length
      = (Finset.range (filterNextSong log).length).card := (Finset.card_range _).symm
    _ ≤ ((songplays_table catalog log).map (fun row => row.songplay_id)).toFinset.card :=
        Finset.card_le_card hsub
    _ ≤ ((songplays_table catalog log).map (fun row => row.songplay_id)).length :=
        List.toFinset_card_le _
    _ = (songplays_table catalog log).length := List.length_map _ _

/-- C4 witness: with an empty catalog, the single play still yields a
SongPlay row, with both foreign keys null. -/
theorem c4_outer_join_completeness_witness :
    1 ≤ (songplays_table [] logOnePlay).length ∧
      songplays_table [] logOnePlay =
        [{ songplay_id := 0, start_time := some 5, song_id := none,
           artist_id := none, user_id := some "u1", session_id := some 7,
           location := none, level := some "free", user_agent := none }] := by
  refine ⟨?_, by decide⟩
  obtain ⟨row, hrow, -, -, -⟩ := (c4_outer_join_completeness [] logOnePlay).2 0
    playRec (by decide)
  exact List.length_pos_of_mem hrow
